import Mathlib

/-!
Verification of the StageCue playback controller (SoundCueContext.tsx and the
queue/settings components) against its natural-language specification.

The embedding follows the most complete variant of `SoundCueContext.tsx`
(the one providing fades, reorderQueue and MIDI routing).  React state
updates are modelled as immediate, sequential state transitions on an
explicit state record; the re-resolution `useEffect` that watches
`[isShuffled, queue]` is modelled as a derivation function applied at each
point of mutation of its dependencies.  Volumes, durations and positions
are rationals; JS `setInterval` timers are modelled explicitly.
-/

set_option autoImplicit false

namespace StageCue

/-- Repeat mode of the transport, from `type RepeatMode = 'none' | 'one' | 'all'`. -/
inductive RepeatMode where
  | none
  | one
  | all
deriving DecidableEq, Repr

/-- A queue entry, from `interface Track` in `types/index.ts`.  The opaque
`File` handle is not represented; `url` stands for the object URL. -/
structure Track where
  id : String
  name : String
  url : String
  duration : Option ℚ := Option.none
deriving DecidableEq, Repr

/-- Fade configuration, from `audio.fadeIn` / `audio.fadeOut` in `Settings`. -/
structure FadeCfg where
  enabled : Bool
  duration : ℚ
deriving DecidableEq, Repr

/-- Volume-ceiling configuration, from `audio.maxVolume` in `Settings`. -/
structure MaxVolCfg where
  enabled : Bool
  level : ℚ
deriving DecidableEq, Repr

/-- Audio section of the settings object. -/
structure AudioCfg where
  outputId : String
  fadeIn : FadeCfg
  fadeOut : FadeCfg
  maxVolume : MaxVolCfg
  volume : ℚ
deriving DecidableEq, Repr

/-- The six MIDI command slots of `settings.midi.mappings`
(`Record<MidiCommand, number | null>`; an absent/undefined slot is not
serialized by `JSON.stringify`, so it is not represented). -/
structure MidiMappings where
  togglePlayPause : Option ℚ
  stopPlayback : Option ℚ
  playNext : Option ℚ
  playPrev : Option ℚ
  skipForward : Option ℚ
  skipBackward : Option ℚ
deriving DecidableEq, Repr

/-- MIDI section of the settings object. -/
structure MidiCfg where
  inputId : Option String
  mappings : MidiMappings
deriving DecidableEq, Repr

/-- OSC section of the settings object. -/
structure OscCfg where
  ip : String
  port : ℚ
deriving DecidableEq, Repr

/-- The persisted settings object, from the `Settings` type used by the
full variant of the provider. -/
structure Settings where
  midi : MidiCfg
  osc : OscCfg
  audio : AudioCfg
deriving DecidableEq, Repr

/-- The `defaultSettings` constant of the provider. -/
def defaultSettings : Settings :=
  { midi :=
      { inputId := Option.none
      , mappings :=
          { togglePlayPause := some 60
          , stopPlayback := some 50
          , playNext := some 62
          , playPrev := some 59
          , skipForward := some 64
          , skipBackward := some 55 } }
  , osc := { ip := "127.0.0.1", port := 9000 }
  , audio :=
      { outputId := "default"
      , fadeIn := { enabled := false, duration := 2 }
      , fadeOut := { enabled := false, duration := 2 }
      , maxVolume := { enabled := false, level := 100 }
      , volume := 1 } }

/-! ## JSON values

A small JSON value type for the settings export/import round trip
(`JSON.stringify` / `JSON.parse`).  Serialized text is represented by the
JSON value it denotes; `stringify` then `parse` of a plain data object is
the identity at this level. -/

/-- JSON values as produced by `JSON.stringify` on the settings object. -/
inductive Json where
  | jnull : Json
  | jbool (b : Bool) : Json
  | jnum (q : ℚ) : Json
  | jstr (s : String) : Json
  | jobj (fields : List (String × Json)) : Json

/-- Field lookup on a JSON object. -/
def Json.getField (j : Json) (k : String) : Option Json :=
  match j with
  | .jobj fs => fs.lookup k
  | _ => Option.none

/-- Read a JSON value as a number. -/
def Json.asNum (j : Json) : Option ℚ :=
  match j with
  | .jnum q => some q
  | _ => Option.none

/-- Read a JSON value as a string. -/
def Json.asStr (j : Json) : Option String :=
  match j with
  | .jstr s => some s
  | _ => Option.none

/-- Read a JSON value as a boolean. -/
def Json.asBool (j : Json) : Option Bool :=
  match j with
  | .jbool b => some b
  | _ => Option.none

/-- Read a JSON value as a nullable number (`number | null`). -/
def Json.asNullableNum (j : Json) : Option (Option ℚ) :=
  match j with
  | .jnull => some Option.none
  | .jnum q => some (some q)
  | _ => Option.none

/-- Read a JSON value as a nullable string (`string | null`). -/
def Json.asNullableStr (j : Json) : Option (Option String) :=
  match j with
  | .jnull => some Option.none
  | .jstr s => some (some s)
  | _ => Option.none

/-- Encode a nullable string as JSON (`null` for `Option.none`). -/
def encNullableStr (s : Option String) : Json :=
  match s with
  | Option.none => .jnull
  | some v => .jstr v

/-- Encode a nullable number as JSON (`null` for `Option.none`). -/
def encNullableNum (q : Option ℚ) : Json :=
  match q with
  | Option.none => .jnull
  | some v => .jnum v

/-- Serialization of a `Settings` value, field for field and in the key
order of the object literals in the source (`JSON.stringify(settings)`). -/
def encodeSettings (s : Settings) : Json :=
  .jobj
    [ ("midi", .jobj
        [ ("inputId", encNullableStr s.midi.inputId)
        , ("mappings", .jobj
            [ ("togglePlayPause", encNullableNum s.midi.mappings.togglePlayPause)
            , ("stopPlayback", encNullableNum s.midi.mappings.stopPlayback)
            , ("playNext", encNullableNum s.midi.mappings.playNext)
            , ("playPrev", encNullableNum s.midi.mappings.playPrev)
            , ("skipForward", encNullableNum s.midi.mappings.skipForward)
            , ("skipBackward", encNullableNum s.midi.mappings.skipBackward) ]) ])
    , ("osc", .jobj
        [ ("ip", .jstr s.osc.ip)
        , ("port", .jnum s.osc.port) ])
    , ("audio", .jobj
        [ ("outputId", .jstr s.audio.outputId)
        , ("fadeIn", .jobj
            [ ("enabled", .jbool s.audio.fadeIn.enabled)
            , ("duration", .jnum s.audio.fadeIn.duration) ])
        , ("fadeOut", .jobj
            [ ("enabled", .jbool s.audio.fadeOut.enabled)
            , ("duration", .jnum s.audio.fadeOut.duration) ])
        , ("maxVolume", .jobj
            [ ("enabled", .jbool s.audio.maxVolume.enabled)
            , ("level", .jnum s.audio.maxVolume.level) ])
        , ("volume", .jnum s.audio.volume) ]) ]

/-- Decode a fade configuration object. -/
def decodeFadeCfg (j : Json) : Option FadeCfg := do
  let enabled ← (← j.getField "enabled").asBool
  let duration ← (← j.getField "duration").asNum
  pure { enabled := enabled, duration := duration }

/-- Decode a max-volume configuration object. -/
def decodeMaxVolCfg (j : Json) : Option MaxVolCfg := do
  let enabled ← (← j.getField "enabled").asBool
  let level ← (← j.getField "level").asNum
  pure { enabled := enabled, level := level }

/-- Decode the `midi.mappings` object. -/
def decodeMappings (j : Json) : Option MidiMappings := do
  let mTpp ← (← j.getField "togglePlayPause").asNullableNum
  let mStop ← (← j.getField "stopPlayback").asNullableNum
  let mNext ← (← j.getField "playNext").asNullableNum
  let mPrev ← (← j.getField "playPrev").asNullableNum
  let mFwd ← (← j.getField "skipForward").asNullableNum
  let mBwd ← (← j.getField "skipBackward").asNullableNum
  pure { togglePlayPause := mTpp, stopPlayback := mStop, playNext := mNext
       , playPrev := mPrev, skipForward := mFwd, skipBackward := mBwd }

/-- Decode the `midi` section. -/
def decodeMidi (j : Json) : Option MidiCfg := do
  let inputId ← (← j.getField "inputId").asNullableStr
  let mappings ← decodeMappings (← j.getField "mappings")
  pure { inputId := inputId, mappings := mappings }

/-- Decode the `osc` section. -/
def decodeOsc (j : Json) : Option OscCfg := do
  let ip ← (← j.getField "ip").asStr
  let port ← (← j.getField "port").asNum
  pure { ip := ip, port := port }

/-- Decode the `audio` section. -/
def decodeAudio (j : Json) : Option AudioCfg := do
  let outputId ← (← j.getField "outputId").asStr
  let fi ← decodeFadeCfg (← j.getField "fadeIn")
  let fo ← decodeFadeCfg (← j.getField "fadeOut")
  let mv ← decodeMaxVolCfg (← j.getField "maxVolume")
  let volume ← (← j.getField "volume").asNum
  pure { outputId := outputId, fadeIn := fi, fadeOut := fo, maxVolume := mv
       , volume := volume }

/-- Decode a full settings object (the shape `JSON.parse` recovers from an
export produced by `encodeSettings`). -/
def decodeSettings (j : Json) : Option Settings := do
  let midi ← decodeMidi (← j.getField "midi")
  let osc ← decodeOsc (← j.getField "osc")
  let audio ← decodeAudio (← j.getField "audio")
  pure { midi := midi, osc := osc, audio := audio }

/-- The pure part of the provider's `setSettings`: the incoming settings
value is persisted after the max-volume adjustment.  Both branches of the
source's `if`/`else if` on `maxVolume.enabled` force
`volume := maxVolume.level / 100`; they are kept separate to mirror the
code. -/
def applySetSettings (newSettings : Settings) : Settings :=
  if newSettings.audio.maxVolume.enabled
      ∧ newSettings.audio.volume > newSettings.audio.maxVolume.level / 100 then
    { newSettings with audio :=
        { newSettings.audio with volume := newSettings.audio.maxVolume.level / 100 } }
  else if newSettings.audio.maxVolume.enabled then
    { newSettings with audio :=
        { newSettings.audio with volume := newSettings.audio.maxVolume.level / 100 } }
  else
    newSettings

/-- The settings component's `exportSettings`: serialize the current
settings to JSON text (represented by its JSON value). -/
def exportSettings (s : Settings) : Json := encodeSettings s

/-- The settings component's `importSettings`: parse the file text and
hand the parsed object to the provider's `setSettings`.  `Option.none`
models the `catch` branch (invalid settings file). -/
def importSettings (j : Json) : Option Settings :=
  (decodeSettings j).map applySetSettings

/-- The export/import round trip on a settings value. -/
def settingsRoundTrip (s : Settings) : Option Settings :=
  importSettings (exportSettings s)

/-! ## Transport controller state

The provider's React state, refs and the one `HTMLAudioElement`, as one
record.  `playOk` is the environment's answer to `audio.play()` (promise
resolution vs rejection); it is fixed per run.  Toasts are collected in
`notices`, newest first. -/

/-- Media error codes of the platform (`MediaError.MEDIA_ERR_*`). -/
inductive MediaErrCode where
  | aborted
  | network
  | decode
  | srcNotSupported
deriving DecidableEq, Repr

/-- User-visible toast notices emitted by the modelled code paths. -/
inductive ToastMsg where
  | reorderingDisabled
  | playbackError (trackName : String) (code : MediaErrCode)
  | playbackErrorSelectedTrack
  | duplicateTracksSkipped
  | tracksAdded (count : Nat)
deriving DecidableEq, Repr

/-- Work a fade-out completion callback performs, defunctionalized: the
closures passed to `fadeOutAnd` in the source. -/
inductive PendingAction where
  | runPlayTrack (index : Nat) (andPlay : Bool)
  | runPauseOnly
  | runStopAction
  | runPrevLogic
deriving DecidableEq, Repr

/-- Direction of a running fade. -/
inductive FadeKind where
  | fadeOutK
  | fadeInK
deriving DecidableEq, Repr

/-- The single interval slot `fadeIntervalRef` together with the closure
variables of the running fade (`currentFadeTime`, `startVolume`/target,
`stepValue`, the completion callback). -/
structure FadeTimer where
  kind : FadeKind
  remaining : ℚ
  startVolume : ℚ
  step : ℚ
  onComplete : Option PendingAction
deriving DecidableEq, Repr

/-- The provider's state. -/
structure TState where
  queue : List Track
  shuffledQueue : List Track
  currentTrackIndex : Option Nat
  isPlaying : Bool
  isFading : Bool
  fadeCountdown : Option ℚ
  fadeTimer : Option FadeTimer
  repeatMode : RepeatMode
  isShuffled : Bool
  isMuted : Bool
  settings : Settings
  audioVolume : ℚ
  audioSrc : Option String
  audioPaused : Bool
  currentTime : ℚ
  progress : ℚ
  duration : ℚ
  notices : List ToastMsg
  playOk : Bool
deriving DecidableEq, Repr

/-- The effective queue: `isShuffled ? shuffledQueue : queue`. -/
def effQ (st : TState) : List Track :=
  if st.isShuffled then st.shuffledQueue else st.queue

/-- The derived current track:
`currentTrackIndex !== null ? currentQueue[currentTrackIndex] : null`. -/
def currentTrack (st : TState) : Option Track :=
  match st.currentTrackIndex with
  | some i => (effQ st)[i]?
  | Option.none => Option.none

/-- The source's `stopFade`: clear the interval slot and the fade UI
state. -/
def stopFade (st : TState) : TState :=
  { st with fadeTimer := Option.none, isFading := false,
            fadeCountdown := Option.none }

/-- The ramp start volume / target: `isMuted ? 0 : volume`, where `volume`
is `settings.audio.volume` in this variant. -/
def fadeVolTarget (st : TState) : ℚ :=
  if st.isMuted then 0 else st.settings.audio.volume

/-- The source's `fadeIn`: cancel any fade, then either start an up-ramp
interval from volume 0, or set the target volume at once when fade-in is
disabled or non-positive. -/
def fadeIn (st : TState) : TState :=
  let st1 := stopFade st
  let cfg := st1.settings.audio.fadeIn
  if cfg.enabled ∧ 0 < cfg.duration then
    let target := fadeVolTarget st1
    { st1 with isFading := true, fadeCountdown := some cfg.duration,
               audioVolume := 0,
               fadeTimer := some
                 { kind := .fadeInK, remaining := cfg.duration,
                   startVolume := target, step := target / (cfg.duration * 20),
                   onComplete := Option.none } }
  else
    { st1 with audioVolume := fadeVolTarget st1 }

/-- The source's `playTrack(index, andPlay)`: cancel any fade, look the
track up in the effective queue, set the index and load the source, then
play; on promise resolution either keep playing and fade in, or pause for
a cue-up; on rejection surface a toast and clear `isPlaying`. -/
def playTrack (index : Nat) (andPlay : Bool) (st : TState) : TState :=
  let st1 := stopFade st
  match (effQ st1)[index]? with
  | Option.none => st1
  | some tr =>
    let st2 := { st1 with currentTrackIndex := some index,
                          audioSrc := some tr.url, currentTime := 0,
                          audioPaused := false }
    if st2.playOk then
      if andPlay then fadeIn { st2 with isPlaying := true }
      else { st2 with audioPaused := true, isPlaying := false }
    else
      { st2 with isPlaying := false,
                 notices := ToastMsg.playbackErrorSelectedTrack :: st2.notices }

/-- The `stopAction` closure of `stopPlayback`: pause, rewind, clear
`isPlaying`. -/
def stopAction (st : TState) : TState :=
  { st with audioPaused := true, currentTime := 0, isPlaying := false }

/-- The inner `logic` closure of `playPrev`: more than 3 seconds in,
restart the current track; otherwise step to the previous index, wrapping
to the last track only under repeat-all. -/
def prevLogic (st : TState) : TState :=
  match st.currentTrackIndex with
  | Option.none => st
  | some i =>
    if 3 < st.currentTime then
      let st1 := { st with currentTime := 0 }
      if st1.isPlaying then fadeIn st1
      else
        let st2 := if st1.playOk then fadeIn { st1 with audioPaused := false } else st1
        { st2 with isPlaying := true }
    else
      if i = 0 then
        if st.repeatMode = RepeatMode.all ∧ 0 < (effQ st).length then
          playTrack ((effQ st).length - 1) true st
        else st
      else playTrack (i - 1) true st

/-- Interpretation of a deferred fade-out completion callback. -/
def runAction (act : PendingAction) (st : TState) : TState :=
  match act with
  | .runPlayTrack i ap => playTrack i ap st
  | .runPauseOnly => { st with audioPaused := true }
  | .runStopAction => stopAction st
  | .runPrevLogic => prevLogic st

/-- The source's `fadeOutAnd(callback)`: cancel any fade, then either
start a down-ramp interval carrying the callback, or run the callback at
once when fade-out is disabled or non-positive. -/
def fadeOutAnd (act : PendingAction) (st : TState) : TState :=
  let st1 := stopFade st
  let cfg := st1.settings.audio.fadeOut
  if cfg.enabled ∧ 0 < cfg.duration then
    let startVolume := fadeVolTarget st1
    { st1 with isFading := true, fadeCountdown := some cfg.duration,
               fadeTimer := some
                 { kind := .fadeOutK, remaining := cfg.duration,
                   startVolume := startVolume,
                   step := startVolume / (cfg.duration * 20),
                   onComplete := some act } }
  else runAction act st1

/-- Run a pending fade to completion (all remaining interval ticks): a
fade-out ramps to 0, stops, fires its callback and then restores the
pre-fade volume (`audio.volume = startVolume` after `callback()`); a
fade-in ramps to its target and stops.  Identity when no fade is live. -/
def settleFade (st : TState) : TState :=
  match st.fadeTimer with
  | Option.none => st
  | some t =>
    match t.kind with
    | .fadeOutK =>
      let st1 := stopFade { st with audioVolume := 0 }
      let st2 := match t.onComplete with
                 | some act => runAction act st1
                 | Option.none => st1
      { st2 with audioVolume := t.startVolume }
    | .fadeInK => stopFade { st with audioVolume := t.startVolume }

/-- The source's `stopPlayback(fade)`. -/
def stopPlayback (fade : Bool) (st : TState) : TState :=
  if fade ∧ st.isPlaying then fadeOutAnd .runStopAction st
  else stopAction (stopFade st)

/-- The source's `playNext`: advance within the effective queue; past the
end either wrap to 0 under repeat-all or stop without fade and re-cue the
first track unplayed; otherwise fade out into the next track.  (The
`fromError` parameter is unused by this variant's body.) -/
def playNext (st : TState) : TState :=
  match st.currentTrackIndex with
  | Option.none => st
  | some i =>
    let q := effQ st
    if q.length ≤ i + 1 then
      if st.repeatMode = RepeatMode.all then
        fadeOutAnd (.runPlayTrack 0 true) st
      else
        let st1 := stopPlayback false st
        if 0 < q.length then playTrack 0 false st1 else st1
    else fadeOutAnd (.runPlayTrack (i + 1) true) st

/-- The source's `playPrev`: no-op while fading; bracket the inner logic
with a fade-out only while playing. -/
def playPrev (st : TState) : TState :=
  if st.isFading then st
  else if st.isPlaying then fadeOutAnd .runPrevLogic st
  else prevLogic st

/-- The source's `togglePlayPause`. -/
def togglePlayPause (st : TState) : TState :=
  if st.isFading then st
  else
    match currentTrack st with
    | Option.none =>
      if 0 < (effQ st).length then playTrack 0 true st else st
    | some _ =>
      if st.isPlaying then
        let st1 := fadeOutAnd .runPauseOnly st
        { st1 with isPlaying := false }
      else
        if st.playOk then fadeIn { st with isPlaying := true, audioPaused := false }
        else { st with isPlaying := false }

/-- Body of the `[isShuffled, queue]` effect after the shuffled projection
has been recomputed: re-resolve the current index from the remembered
current track. -/
def reResolve (oldTrack : Option Track) (st : TState) : TState :=
  match oldTrack with
  | Option.none => st
  | some tr =>
    match (effQ st).findIdx? (fun t => t.id == tr.id) with
    | some j => { st with currentTrackIndex := some j }
    | Option.none =>
      if 0 < (effQ st).length then playTrack 0 false st
      else stopPlayback false { st with currentTrackIndex := Option.none }

/-- The `[isShuffled, queue]` effect: rebuild or discard the shuffled
projection, then re-resolve the index.  `perm` stands for the random
permutation `[...queue].sort(() => Math.random() - 0.5)` produces. -/
def queueEffect (oldTrack : Option Track) (perm : List Track → List Track)
    (st : TState) : TState :=
  let st1 := if st.isShuffled then { st with shuffledQueue := perm st.queue }
             else { st with shuffledQueue := [] }
  reResolve oldTrack st1

/-- The source's `toggleShuffle` together with the effect it triggers. -/
def toggleShuffle (perm : List Track → List Track) (st : TState) : TState :=
  queueEffect (currentTrack st) perm { st with isShuffled := ¬ st.isShuffled }

/-- The provider's `setQueue` wrapper together with the effect the queue
change triggers and the deferred `playTrack(0, false)` for a first-filled
queue. -/
def setQueue (newQ : List Track) (perm : List Track → List Track)
    (st : TState) : TState :=
  let wasEmpty := st.queue.length = 0
  let wasIdxNone := st.currentTrackIndex = Option.none
  let st1 := queueEffect (currentTrack st) perm { st with queue := newQ }
  if wasEmpty ∧ 0 < newQ.length ∧ wasIdxNone then playTrack 0 false st1 else st1

/-- The source's `clearQueue`: stop without fade, drop both queues and all
position state.  (The subsequent `[isShuffled, queue]` effect recomputes
the shuffled projection of an empty queue, which is again empty, and sees
no current track, so it is absorbed here.) -/
def clearQueue (st : TState) : TState :=
  let st1 := stopPlayback false st
  { st1 with queue := [], shuffledQueue := [],
             currentTrackIndex := Option.none, progress := 0, duration := 0,
             audioSrc := Option.none, currentTime := 0 }

/-- JS array move, `result.splice(startIndex, 1)` followed by
`result.splice(endIndex, 0, removed)`.  `splice` inserts past-the-end
positions at the end, hence the clamp; an out-of-range `startIndex` is
modelled as leaving the list unchanged (the TS value would gain an
`undefined` entry, which the `Track[]` type rules out — the drag-and-drop
caller only passes rendered indices). -/
def listMove {α : Type} (startIndex endIndex : Nat) (l : List α) : List α :=
  match l[startIndex]? with
  | Option.none => l
  | some a => (l.eraseIdx startIndex).insertIdx (min endIndex (l.length - 1)) a

/-- The source's `reorderQueue(startIndex, endIndex)` together with the
effect the queue change triggers: refused with a toast while shuffled;
otherwise move the canonical track and re-resolve the index by the moved
track's id. -/
def reorderQueue (startIndex endIndex : Nat) (st : TState) : TState :=
  if st.isShuffled then
    { st with notices := ToastMsg.reorderingDisabled :: st.notices }
  else
    let result := listMove startIndex endIndex st.queue
    let oldTrack := currentTrack st
    let st1 := { st with queue := result }
    let st2 :=
      match oldTrack with
      | Option.none => st1
      | some tr =>
        match result.findIdx? (fun t => t.id == tr.id) with
        | some j => { st1 with currentTrackIndex := some j }
        | Option.none => st1
    queueEffect (currentTrack st2) (fun q => q) st2

/-- The source's `setVolume`: clamp to the ceiling when enabled, cancel
any fade, apply to the element, unmute on an audible volume, and persist
into `settings.audio.volume`. -/
def setVolume (vol : ℚ) (st : TState) : TState :=
  let newVol : ℚ := if st.settings.audio.maxVolume.enabled then
                  min vol (st.settings.audio.maxVolume.level / 100)
                else vol
  let st1 : TState := { stopFade st with audioVolume := newVol }
  let st2 : TState :=
    if (0 : ℚ) < newVol ∧ st1.isMuted then { st1 with isMuted := false } else st1
  { st2 with settings :=
      { st2.settings with audio := { st2.settings.audio with volume := newVol } } }

/-- The non-advancing part of `handleError`: cancel the fade, ignore a
missing source or the aborted code, and otherwise toast the failing
track's name with the error code and clear `isPlaying`. -/
def handleErrorPre (code : MediaErrCode) (st : TState) : TState :=
  let st1 := stopFade st
  match st1.audioSrc with
  | Option.none => st1
  | some _ =>
    match code with
    | .aborted => st1
    | c =>
      let trackName := match currentTrack st1 with
                       | some tr => tr.name
                       | Option.none => "Unknown Track"
      { st1 with notices := ToastMsg.playbackError trackName c :: st1.notices,
                 isPlaying := false }

/-- The source's `handleError` listener: the non-aborted, source-present
case ends in `playNext(true)`. -/
def handleError (code : MediaErrCode) (st : TState) : TState :=
  match st.audioSrc, code with
  | Option.none, _ => stopFade st
  | some _, .aborted => stopFade st
  | some _, _ => playNext (handleErrorPre code st)

/-- The public command surface (plus fade completion and the error event),
as operations on the state. -/
inductive Op where
  | opPlayTrack (index : Nat) (andPlay : Bool)
  | opPlayNext
  | opPlayPrev
  | opTogglePlayPause
  | opStopPlayback (fade : Bool)
  | opToggleShuffle (perm : List Track → List Track)
  | opSetQueue (newQ : List Track) (perm : List Track → List Track)
  | opReorderQueue (startIndex endIndex : Nat)
  | opClearQueue
  | opSetVolume (vol : ℚ)
  | opSetRepeatMode (m : RepeatMode)
  | opToggleMute
  | opSettleFade
  | opHandleError (code : MediaErrCode)

/-- One operation applied to the state. -/
def stepOp (o : Op) (st : TState) : TState :=
  match o with
  | .opPlayTrack i ap => playTrack i ap st
  | .opPlayNext => playNext st
  | .opPlayPrev => playPrev st
  | .opTogglePlayPause => togglePlayPause st
  | .opStopPlayback f => stopPlayback f st
  | .opToggleShuffle perm => toggleShuffle perm st
  | .opSetQueue newQ perm => setQueue newQ perm st
  | .opReorderQueue s e => reorderQueue s e st
  | .opClearQueue => clearQueue st
  | .opSetVolume v => setVolume v st
  | .opSetRepeatMode m => { st with repeatMode := m }
  | .opToggleMute => { st with isMuted := ¬ st.isMuted, audioPaused := st.audioPaused }
  | .opSettleFade => settleFade st
  | .opHandleError c => handleError c st

/-- A sequence of operations applied in order. -/
def runOps (ops : List Op) (st : TState) : TState :=
  ops.foldl (fun s o => stepOp o s) st

/-- The provider's initial state. -/
def initState : TState :=
  { queue := [], shuffledQueue := [], currentTrackIndex := Option.none
  , isPlaying := false, isFading := false, fadeCountdown := Option.none
  , fadeTimer := Option.none, repeatMode := RepeatMode.none
  , isShuffled := false, isMuted := false, settings := defaultSettings
  , audioVolume := 1, audioSrc := Option.none, audioPaused := true
  , currentTime := 0, progress := 0, duration := 0, notices := []
  , playOk := true }

/-- The index-bounds invariant of the spec: a set current index addresses
the effective queue. -/
def IndexInv (st : TState) : Prop :=
  ∀ i, st.currentTrackIndex = some i → i < (effQ st).length

/-! ## The interval arena

A lower-level model of the `setInterval`/`clearInterval` discipline behind
`stopFade`/`fadeOutAnd`/`fadeIn`, for the single-live-timer property: here
the set of actually scheduled intervals is a list (the platform can hold
any number of live intervals), and `fadeIntervalRef` holds the id of the
one the provider believes it owns.  Completion callbacks may issue further
fade or transport calls; their fade effects are themselves `fadeOut` /
`fadeIn` / `stop` operations of this alphabet. -/

namespace FadeArena

/-- A scheduled interval with its closure's countdown variables. -/
structure ATimer where
  id : Nat
  duration : ℚ
  remaining : ℚ
deriving DecidableEq, Repr

/-- The platform's live intervals plus the provider's fade state. -/
structure AState where
  live : List ATimer
  ref : Option Nat
  isFading : Bool
  fadeCountdown : Option ℚ
  nextId : Nat
deriving DecidableEq, Repr

/-- The source's `stopFade`: `clearInterval(fadeIntervalRef.current)` when
the slot is occupied, then clear the slot and the fade UI state. -/
def stopFadeA (st : AState) : AState :=
  let live1 := match st.ref with
               | some tid => st.live.filter (fun t => t.id ≠ tid)
               | Option.none => st.live
  { st with live := live1, ref := Option.none, isFading := false,
            fadeCountdown := Option.none }

/-- The timer-relevant part of `fadeOutAnd`: cancel, then schedule a new
interval when fade-out is enabled with a positive duration (the
synchronous callback path schedules nothing). -/
def fadeOutAndA (cfg : FadeCfg) (st : AState) : AState :=
  let st1 := stopFadeA st
  if cfg.enabled ∧ 0 < cfg.duration then
    { st1 with
        live := st1.live ++ [{ id := st1.nextId, duration := cfg.duration
                             , remaining := cfg.duration }]
      , ref := some st1.nextId, nextId := st1.nextId + 1
      , isFading := true, fadeCountdown := some cfg.duration }
  else st1

/-- The timer-relevant part of `fadeIn`, identical in its scheduling
discipline. -/
def fadeInA (cfg : FadeCfg) (st : AState) : AState :=
  let st1 := stopFadeA st
  if cfg.enabled ∧ 0 < cfg.duration then
    { st1 with
        live := st1.live ++ [{ id := st1.nextId, duration := cfg.duration
                             , remaining := cfg.duration }]
      , ref := some st1.nextId, nextId := st1.nextId + 1
      , isFading := true, fadeCountdown := some cfg.duration }
  else st1

/-- One 50ms interval firing: every live interval's closure decrements its
own countdown and publishes it (clamped at 0); completion
(`remaining ≤ 0`, the volume having reached its target) runs `stopFade`. -/
def tickA (st : AState) : AState :=
  let live1 := st.live.map (fun t => { t with remaining := t.remaining - 1/20 })
  let st1 := { st with live := live1 }
  match st1.ref with
  | Option.none => st1
  | some tid =>
    match live1.find? (fun t => t.id == tid) with
    | Option.none => st1
    | some t =>
      let st2 := { st1 with fadeCountdown := some (max t.remaining 0) }
      if t.remaining ≤ 0 then stopFadeA st2 else st2

/-- Fade requests, cancellations and timer firings. -/
inductive AOp where
  | fadeOut (cfg : FadeCfg)
  | fadeIn (cfg : FadeCfg)
  | stop
  | tick
deriving DecidableEq, Repr

/-- One arena operation. -/
def stepA (o : AOp) (st : AState) : AState :=
  match o with
  | .fadeOut cfg => fadeOutAndA cfg st
  | .fadeIn cfg => fadeInA cfg st
  | .stop => stopFadeA st
  | .tick => tickA st

/-- No interval scheduled yet. -/
def initA : AState :=
  { live := [], ref := Option.none, isFading := false
  , fadeCountdown := Option.none, nextId := 0 }

/-- A sequence of operations from the initial state. -/
def runA (ops : List AOp) : AState :=
  ops.foldl (fun s o => stepA o s) initA

/-- At most one live interval; the slot points at it and `fadeCountdown`
publishes its remaining time. -/
def AInv (st : AState) : Prop :=
  st.live = []
  ∨ ∃ t, st.live = [t] ∧ st.ref = some t.id
      ∧ st.fadeCountdown = some (max t.remaining 0)

end FadeArena

/-! ## File import (Queue component) -/

/-- What the add-files handler reads off a `File`. -/
structure FileInfo where
  name : String
  size : Nat
  lastModified : Nat
  mime : String
deriving DecidableEq, Repr

/-- The `file.name.replace(/\.[^/.]+$/, "")` step: drop a final
`.extension` whose extension is nonempty and free of `.` and `/`. -/
def stripExt (s : String) : String :=
  let parts := s.splitOn "."
  match parts.getLast? with
  | some last =>
    if 2 ≤ parts.length ∧ last ≠ "" ∧ ¬ last.contains '/' then
      String.intercalate "." (parts.dropLast)
    else s
  | Option.none => s

/-- The derived track id
`` `${file.name}-${file.size}-${file.lastModified}` ``. -/
def deriveTrackId (f : FileInfo) : String :=
  f.name ++ "-" ++ toString f.size ++ "-" ++ toString f.lastModified

/-- One accepted file turned into a `Track` (`URL.createObjectURL` is an
opaque handle, represented by a string derived from the file). -/
def mkTrack (f : FileInfo) : Track :=
  { id := deriveTrackId f, name := stripExt f.name, url := "blob:" ++ f.name
  , duration := Option.none }

/-- The `file.type.startsWith('audio/')` test, restated structurally over
the character lists so that terms evaluate inside proofs
(`String.startsWith` itself is defined through a non-structural loop). -/
def strStartsWith (s pre : String) : Bool :=
  pre.data.isPrefixOf s.data

/-- The queue component's `handleFileChange`: keep `audio/*` files, build
tracks with derived ids, drop those whose id is already in the queue,
toast about skipped duplicates and about added tracks, and append. -/
def handleFileChange (files : List FileInfo) (st : TState) : TState :=
  let newTracks := (files.filter (fun f => strStartsWith f.mime "audio/")).map mkTrack
  let existingIds := st.queue.map Track.id
  let uniqueNewTracks := newTracks.filter (fun t => ! existingIds.contains t.id)
  let st1 := if uniqueNewTracks.length < newTracks.length then
               { st with notices := ToastMsg.duplicateTracksSkipped :: st.notices }
             else st
  let st2 := if 0 < uniqueNewTracks.length then
               { st1 with notices :=
                   ToastMsg.tracksAdded uniqueNewTracks.length :: st1.notices }
             else st1
  setQueue (st2.queue ++ uniqueNewTracks) (fun q => q) st2

/-! ## Concrete states used as witness inputs -/

/-- A sample track. -/
def trackA : Track := { id := "idA", name := "A", url := "urlA" }

/-- A sample track. -/
def trackB : Track := { id := "idB", name := "B", url := "urlB" }

/-- A sample track. -/
def trackC : Track := { id := "idC", name := "C", url := "urlC" }

/-- Queue `[A, B, C]`, track A current, shuffle off. -/
def stABC : TState :=
  { initState with
      queue := [trackA, trackB, trackC], currentTrackIndex := some 0,
      audioSrc := some "urlA", isPlaying := true }

/-- Single-track queue with its track current and playing. -/
def stA : TState :=
  { initState with
      queue := [trackA], currentTrackIndex := some 0,
      audioSrc := some "urlA", isPlaying := true }

/-- A shuffled state. -/
def stShuf : TState := { initState with isShuffled := true }

/-- A state with a fade in flight. -/
def stFadingA : TState :=
  { initState with
      queue := [trackA], isFading := true, fadeCountdown := some 1,
      fadeTimer := some { kind := .fadeOutK, remaining := 1, startVolume := 1,
                          step := 1/40, onComplete := some .runStopAction } }

/-- Settings with the volume ceiling enabled at 50%. -/
def settingsMaxVol50 : Settings :=
  { defaultSettings with audio :=
      { defaultSettings.audio with maxVolume := { enabled := true, level := 50 } } }

/-- A state whose settings carry the 50% ceiling. -/
def stMaxVol : TState := { initState with settings := settingsMaxVol50 }

/-- A sample audio file. -/
def fileX : FileInfo :=
  { name := "x.mp3", size := 10, lastModified := 20, mime := "audio/mpeg" }

/-! ## Theorems -/

theorem asNullableNum_encNullableNum (q : Option ℚ) :
    (encNullableNum q).asNullableNum = some q := by
  cases q <;> rfl

theorem asNullableStr_encNullableStr (s : Option String) :
    (encNullableStr s).asNullableStr = some s := by
  cases s <;> rfl

theorem decode_encode_settings (s : Settings) :
    decodeSettings (encodeSettings s) = some s := by
  cases s with
  | mk midi osc audio =>
    cases midi with
    | mk inputId mappings =>
      cases mappings with
      | mk a b c d e f =>
        cases osc
        cases audio with
        | mk outputId fi fo mv volume =>
          cases fi; cases fo; cases mv
          cases inputId <;> cases a <;> cases b <;> cases c <;> cases d <;>
            cases e <;> cases f <;> rfl

/-! ### Helper lemmas about the transport operations -/

theorem effQ_stopFade (st : TState) : effQ (stopFade st) = effQ st := rfl

theorem effQ_fadeIn (st : TState) : effQ (fadeIn st) = effQ st := by
  simp only [fadeIn]; split <;> rfl

theorem currentTrackIndex_fadeIn (st : TState) :
    (fadeIn st).currentTrackIndex = st.currentTrackIndex := by
  simp only [fadeIn]; split <;> rfl

theorem isPlaying_fadeIn (st : TState) :
    (fadeIn st).isPlaying = st.isPlaying := by
  simp only [fadeIn]; split <;> rfl

theorem notices_fadeIn (st : TState) :
    (fadeIn st).notices = st.notices := by
  simp only [fadeIn]; split <;> rfl

/-! ### C6 -/

/-- C6: while shuffled, `reorderQueue` surfaces the reordering-disabled
notice and performs no other change at all. -/
theorem reorderQueue_shuffled_noop (st : TState) (s e : Nat)
    (h : st.isShuffled = true) :
    reorderQueue s e st
      = { st with notices := ToastMsg.reorderingDisabled :: st.notices } := by
  simp [reorderQueue, h]

theorem reorderQueue_shuffled_noop_witness :
    reorderQueue 0 1 stShuf
      = { stShuf with notices := [ToastMsg.reorderingDisabled] } :=
  reorderQueue_shuffled_noop stShuf 0 1 rfl

/-! ### C10 -/

/-- C10: with the volume ceiling enabled, `setVolume v` stores and applies
`min v (level / 100)`, and the stored settings volume never exceeds the
ceiling. -/
theorem setVolume_ceiling (st : TState) (v : ℚ)
    (h : st.settings.audio.maxVolume.enabled = true) :
    (setVolume v st).settings.audio.volume
        = min v (st.settings.audio.maxVolume.level / 100)
    ∧ (setVolume v st).audioVolume
        = min v (st.settings.audio.maxVolume.level / 100)
    ∧ (setVolume v st).settings.audio.volume
        ≤ st.settings.audio.maxVolume.level / 100 := by
  refine ⟨?_, ?_, ?_⟩
  · simp only [setVolume, h, if_true]
  · simp only [setVolume, h, if_true]
    split <;> rfl
  · simp only [setVolume, h, if_true]
    exact min_le_right _ _

theorem setVolume_ceiling_witness :
    (setVolume 1 stMaxVol).settings.audio.volume
        = min 1 (stMaxVol.settings.audio.maxVolume.level / 100)
    ∧ (setVolume 1 stMaxVol).audioVolume
        = min 1 (stMaxVol.settings.audio.maxVolume.level / 100)
    ∧ (setVolume 1 stMaxVol).settings.audio.volume
        ≤ stMaxVol.settings.audio.maxVolume.level / 100 :=
  setVolume_ceiling stMaxVol 1 rfl

/-! ### C7 -/

/-- C7 counterexample: with the 50% ceiling enabled and volume 1, import
of the exported settings stores volume 1/2, so the round trip is not the
identity on this settings value. -/
theorem settingsRoundTrip_not_identity :
    settingsRoundTrip settingsMaxVol50 ≠ some settingsMaxVol50 := by
  have h : settingsRoundTrip settingsMaxVol50
      = some (applySetSettings settingsMaxVol50) := by
    unfold settingsRoundTrip importSettings exportSettings
    rw [decode_encode_settings]; rfl
  rw [h]
  intro hc
  have h2 := congrArg (fun s => s.audio.volume) (Option.some.inj hc)
  norm_num [applySetSettings, settingsMaxVol50, defaultSettings] at h2

/-- C7 amended: export then import yields `applySetSettings` of the
original settings: the identity whenever the volume ceiling is disabled,
and otherwise the original with its volume forced to `level / 100`. -/
theorem settingsRoundTrip_spec (s : Settings) :
    settingsRoundTrip s = some (applySetSettings s)
    ∧ (s.audio.maxVolume.enabled = false → settingsRoundTrip s = some s)
    ∧ (s.audio.maxVolume.enabled = true →
        settingsRoundTrip s
          = some { s with audio :=
              { s.audio with volume := s.audio.maxVolume.level / 100 } }) := by
  have h : settingsRoundTrip s = some (applySetSettings s) := by
    unfold settingsRoundTrip importSettings exportSettings
    rw [decode_encode_settings]; rfl
  refine ⟨h, ?_, ?_⟩
  · intro hd
    rw [h]
    unfold applySetSettings
    simp [hd]
  · intro he
    rw [h]
    unfold applySetSettings
    simp only [he, true_and]
    split <;> rfl

theorem settingsRoundTrip_spec_witness :
    defaultSettings.audio.maxVolume.enabled = false
    ∧ settingsRoundTrip defaultSettings = some defaultSettings :=
  ⟨rfl, (settingsRoundTrip_spec defaultSettings).2.1 rfl⟩

/-! ### C4 -/

/-- C4 counterexample: an out-of-range `playTrack` is not a complete
no-op — it still cancels an in-flight fade. -/
theorem playTrack_invalid_not_noop :
    playTrack 5 true stFadingA ≠ stFadingA := by
  decide

/-- C4 amended: an in-range `playTrack(i, andPlay)` sets
`currentTrackIndex = i` and makes `EffectiveQueue[i]` the current track;
an out-of-range call equals `stopFade` — the whole state unchanged except
that any in-flight fade is cancelled — and never crashes. -/
theorem playTrack_spec (st : TState) (i : Nat) (ap : Bool) :
    (i < (effQ st).length →
      (playTrack i ap st).currentTrackIndex = some i
      ∧ currentTrack (playTrack i ap st) = (effQ st)[i]?)
    ∧ ((effQ st).length ≤ i → playTrack i ap st = stopFade st) := by
  constructor
  · intro h
    have hg : (effQ st)[i]? = some ((effQ st)[i]) := List.getElem?_eq_getElem h
    simp only [playTrack, effQ_stopFade, hg]
    split
    · split
      · constructor
        · simp only [currentTrackIndex_fadeIn]
        · simp only [currentTrack, currentTrackIndex_fadeIn, effQ_fadeIn]
          exact hg
      · constructor
        · rfl
        · simp only [currentTrack]
          exact hg
    · constructor
      · rfl
      · simp only [currentTrack]
        exact hg
  · intro h
    have hg : (effQ st)[i]? = Option.none := by
      simp [List.getElem?_eq_none h]
    simp only [playTrack, effQ_stopFade, hg]

theorem playTrack_spec_witness :
    (0 < (effQ stABC).length
     ∧ (playTrack 0 true stABC).currentTrackIndex = some 0
     ∧ currentTrack (playTrack 0 true stABC) = (effQ stABC)[0]?)
    ∧ ((effQ stABC).length ≤ 5 ∧ playTrack 5 true stABC = stopFade stABC) := by
  have h0 := playTrack_spec stABC 0 true
  have h5 := playTrack_spec stABC 5 true
  exact ⟨⟨by decide, h0.1 (by decide)⟩, by decide, h5.2 (by decide)⟩

/-! ### C1 -/

theorem playTrack_valid_play (st : TState) (j : Nat)
    (hj : j < (effQ st).length) (hok : st.playOk = true) :
    (playTrack j true st).currentTrackIndex = some j
    ∧ (playTrack j true st).isPlaying = true := by
  have hg : (effQ st)[j]? = some ((effQ st)[j]) := List.getElem?_eq_getElem hj
  have hok1 : (stopFade st).playOk = true := hok
  simp [playTrack, effQ_stopFade, hg, hok1, currentTrackIndex_fadeIn, isPlaying_fadeIn]

theorem playTrack_valid_cue (st : TState) (j : Nat)
    (hj : j < (effQ st).length) :
    (playTrack j false st).currentTrackIndex = some j
    ∧ (playTrack j false st).isPlaying = false := by
  have hg : (effQ st)[j]? = some ((effQ st)[j]) := List.getElem?_eq_getElem hj
  simp only [playTrack, effQ_stopFade, hg]
  split <;> simp

theorem fadeTimer_fadeIn_kind (st : TState) (t : FadeTimer)
    (h : (fadeIn st).fadeTimer = some t) : t.kind = FadeKind.fadeInK := by
  simp only [fadeIn, stopFade] at h
  split at h
  · simp only [Option.some.injEq] at h
    rw [← h]
  · exact absurd h (by simp)

theorem playTrack_fadeTimer_fadeInK (st : TState) (j : Nat) (ap : Bool)
    (t : FadeTimer) (h : (playTrack j ap st).fadeTimer = some t) :
    t.kind = FadeKind.fadeInK := by
  simp only [playTrack] at h
  split at h
  · exact absurd h (by simp [stopFade])
  · split at h
    · split at h
      · exact fadeTimer_fadeIn_kind _ t h
      · exact absurd h (by simp [stopFade])
    · exact absurd h (by simp [stopFade])

theorem settleFade_preserve (st : TState)
    (h : ∀ t, st.fadeTimer = some t → t.kind = FadeKind.fadeInK) :
    (settleFade st).currentTrackIndex = st.currentTrackIndex
    ∧ (settleFade st).isPlaying = st.isPlaying := by
  unfold settleFade
  cases hft : st.fadeTimer with
  | none => exact ⟨rfl, rfl⟩
  | some t =>
    have hk := h t hft
    simp [hk, stopFade]

theorem stopPlayback_nofade (st : TState) :
    stopPlayback false st = stopAction (stopFade st) := by
  simp [stopPlayback]

/-- C1: with a current index at the last position of the effective queue,
`playNext` wraps to index 0 and plays it under repeat-all (once the
bracketing fade completes), and otherwise stops playback and re-cues index
0 unplayed. -/
theorem playNext_at_end (st : TState) (i : Nat)
    (h1 : st.currentTrackIndex = some i)
    (h2 : i < (effQ st).length)
    (h3 : (effQ st).length ≤ i + 1)
    (hok : st.playOk = true) :
    (st.repeatMode = RepeatMode.all →
      (settleFade (playNext st)).currentTrackIndex = some 0
      ∧ (settleFade (playNext st)).isPlaying = true)
    ∧ (st.repeatMode ≠ RepeatMode.all →
      (playNext st).isPlaying = false
      ∧ (playNext st).currentTrackIndex = some 0) := by
  have hlen0 : 0 < (effQ st).length := Nat.lt_of_le_of_lt (Nat.zero_le i) h2
  constructor
  · intro hall
    have hpn : playNext st = fadeOutAnd (.runPlayTrack 0 true) st := by
      simp only [playNext, h1]
      rw [if_pos h3, if_pos hall]
    rw [hpn]
    by_cases hfo : (stopFade st).settings.audio.fadeOut.enabled = true
        ∧ 0 < (stopFade st).settings.audio.fadeOut.duration
    · simp only [fadeOutAnd, if_pos hfo, settleFade, runAction]
      constructor
      · apply (playTrack_valid_play _ 0 ?_ ?_).1
        · exact hlen0
        · exact hok
      · apply (playTrack_valid_play _ 0 ?_ ?_).2
        · exact hlen0
        · exact hok
    · simp only [fadeOutAnd, if_neg hfo, runAction]
      have hv := playTrack_valid_play (stopFade st) 0 hlen0 hok
      have hp := settleFade_preserve (playTrack 0 true (stopFade st))
        (fun t ht => playTrack_fadeTimer_fadeInK _ 0 true t ht)
      exact ⟨hp.1.trans hv.1, hp.2.trans hv.2⟩
  · intro hneq
    have hpn : playNext st = playTrack 0 false (stopPlayback false st) := by
      simp only [playNext, h1]
      rw [if_pos h3, if_neg hneq, if_pos hlen0]
    rw [hpn, stopPlayback_nofade]
    have hv := playTrack_valid_cue (stopAction (stopFade st)) 0 hlen0
    exact ⟨hv.2, hv.1⟩

theorem playNext_at_end_witness :
    stA.repeatMode ≠ RepeatMode.all
    ∧ (playNext stA).isPlaying = false
    ∧ (playNext stA).currentTrackIndex = some 0 := by
  have h := playNext_at_end stA 0 rfl (by decide) (by decide) rfl
  exact ⟨by decide, h.2 (by decide)⟩

/-! ### C5 -/

theorem mem_eraseIdx_or {α : Type} (l : List α) (s : Nat) (hs : s < l.length)
    (a : α) (hm : a ∈ l) : a = l[s] ∨ a ∈ l.eraseIdx s := by
  rw [List.eraseIdx_eq_take_drop_succ]
  have hdec : l.take s ++ l[s] :: l.drop (s + 1) = l := by
    rw [List.getElem_cons_drop l s hs]
    exact List.take_append_drop s l
  rw [← hdec] at hm
  simp only [List.mem_append, List.mem_cons] at hm
  rcases hm with h1 | h2 | h3
  · exact Or.inr (List.mem_append.mpr (Or.inl h1))
  · exact Or.inl h2
  · exact Or.inr (List.mem_append.mpr (Or.inr h3))

theorem mem_listMove {α : Type} (s e : Nat) (l : List α) (a : α)
    (hm : a ∈ l) : a ∈ listMove s e l := by
  unfold listMove
  cases hg : l[s]? with
  | none => exact hm
  | some b =>
    have hs : s < l.length := by
      rw [List.getElem?_eq_some] at hg; exact hg.1
    have hb : l[s] = b := by
      rw [List.getElem?_eq_some] at hg; exact hg.2
    have hle : min e (l.length - 1) ≤ (l.eraseIdx s).length := by
      have := List.length_eraseIdx_add_one hs
      omega
    rw [List.mem_insertIdx hle]
    rcases mem_eraseIdx_or l s hs a hm with h1 | h2
    · exact Or.inl (h1.trans hb)
    · exact Or.inr h2

theorem length_listMove {α : Type} (s e : Nat) (l : List α) :
    (listMove s e l).length = l.length := by
  unfold listMove
  cases hg : l[s]? with
  | none => rfl
  | some b =>
    have hs : s < l.length := by
      rw [List.getElem?_eq_some] at hg; exact hg.1
    have herase := List.length_eraseIdx_add_one hs
    rw [List.length_insertIdx _ _ (by omega)]
    omega

/-- C5: while not shuffled, `reorderQueue(startIndex, endIndex)` applies
the JS splice move to the canonical queue and re-resolves the current
index by the current track's id, so the current track's identity is
preserved; in particular `reorderQueue(0,2)` on `[A,B,C]` with index 0
yields `[B,C,A]` and index 2. -/
theorem reorderQueue_spec (st : TState) (s e i : Nat)
    (hsh : st.isShuffled = false)
    (hidx : st.currentTrackIndex = some i)
    (hi : i < st.queue.length) :
    ((reorderQueue s e st).queue = listMove s e st.queue
     ∧ (currentTrack (reorderQueue s e st)).map Track.id
         = (currentTrack st).map Track.id)
    ∧ ((reorderQueue 0 2 stABC).queue = [trackB, trackC, trackA]
       ∧ (reorderQueue 0 2 stABC).currentTrackIndex = some 2) := by
  refine ⟨?_, by decide, by decide⟩
  have heff : effQ st = st.queue := by simp [effQ, hsh]
  have hg : (effQ st)[i]? = some (st.queue[i]) := by
    rw [heff]; exact List.getElem?_eq_getElem hi
  have hct : currentTrack st = some (st.queue[i]) := by
    simp only [currentTrack, hidx, hg]
  have hmem : st.queue[i] ∈ listMove s e st.queue :=
    mem_listMove s e st.queue _ (List.getElem_mem hi)
  have hfind : (listMove s e st.queue).findIdx?
        (fun t => t.id == (st.queue[i]).id)
      = some ((listMove s e st.queue).findIdx
          (fun t => t.id == (st.queue[i]).id)) :=
    List.findIdx?_eq_some_of_exists ⟨st.queue[i], hmem, by simp⟩
  generalize hjdef :
    (listMove s e st.queue).findIdx (fun t => t.id == (st.queue[i]).id) = j at hfind
  obtain ⟨hjlt, hpj, -⟩ := List.findIdx?_eq_some_iff_getElem.mp hfind
  have hid : (listMove s e st.queue)[j].id = st.queue[i].id := by
    simpa using hpj
  have hpredeq : (fun t : Track => t.id == (listMove s e st.queue)[j].id)
      = (fun t : Track => t.id == st.queue[i].id) := by
    funext t; rw [hid]
  have hjget : (listMove s e st.queue)[j]? = some ((listMove s e st.queue)[j]) :=
    List.getElem?_eq_getElem hjlt
  have hred : reorderQueue s e st
      = { st with queue := listMove s e st.queue, shuffledQueue := [],
                  currentTrackIndex := some j } := by
    simp only [reorderQueue, hsh, Bool.false_eq_true, if_false, hct, hfind]
    simp only [queueEffect, reResolve, currentTrack, effQ, Bool.false_eq_true,
               if_false, hjget, hpredeq, hfind]
  rw [hred]
  constructor
  · rfl
  · rw [hct]
    simp only [currentTrack, effQ, hsh, Bool.false_eq_true, if_false, hjget,
               Option.map_some']
    rw [hid]

theorem reorderQueue_spec_witness :
    (stABC.isShuffled = false ∧ stABC.currentTrackIndex = some 0
     ∧ 0 < stABC.queue.length)
    ∧ (reorderQueue 0 2 stABC).queue = listMove 0 2 stABC.queue
    ∧ (currentTrack (reorderQueue 0 2 stABC)).map Track.id
        = (currentTrack stABC).map Track.id := by
  have h := reorderQueue_spec stABC 0 2 0 rfl rfl (by decide)
  exact ⟨⟨rfl, rfl, by decide⟩, h.1.1, h.1.2⟩

/-! ### C8 -/

theorem notices_suffix_playTrack (j : Nat) (ap : Bool) (st : TState) :
    st.notices <:+ (playTrack j ap st).notices := by
  simp only [playTrack]
  split
  · exact List.suffix_rfl
  · split
    · split
      · rw [notices_fadeIn]
        exact List.suffix_rfl
      · exact List.suffix_rfl
    · exact List.suffix_cons _ _

theorem notices_suffix_prevLogic (st : TState) :
    st.notices <:+ (prevLogic st).notices := by
  simp only [prevLogic]
  split
  · exact List.suffix_rfl
  · split
    · split
      · rw [notices_fadeIn]
      · split
        · rw [notices_fadeIn]
        · exact List.suffix_rfl
    · split
      · split
        · exact notices_suffix_playTrack _ _ _
        · exact List.suffix_rfl
      · exact notices_suffix_playTrack _ _ _

theorem notices_suffix_runAction (act : PendingAction) (st : TState) :
    st.notices <:+ (runAction act st).notices := by
  cases act with
  | runPlayTrack j ap => exact notices_suffix_playTrack j ap st
  | runPauseOnly => exact List.suffix_rfl
  | runStopAction => exact List.suffix_rfl
  | runPrevLogic => exact notices_suffix_prevLogic st

theorem notices_suffix_fadeOutAnd (act : PendingAction) (st : TState) :
    st.notices <:+ (fadeOutAnd act st).notices := by
  simp only [fadeOutAnd]
  split
  · exact List.suffix_rfl
  · exact notices_suffix_runAction act (stopFade st)

theorem notices_suffix_stopPlayback (f : Bool) (st : TState) :
    st.notices <:+ (stopPlayback f st).notices := by
  simp only [stopPlayback]
  split
  · exact notices_suffix_fadeOutAnd _ _
  · exact List.suffix_rfl

theorem notices_suffix_playNext (st : TState) :
    st.notices <:+ (playNext st).notices := by
  simp only [playNext]
  split
  · exact List.suffix_rfl
  · split
    · split
      · exact notices_suffix_fadeOutAnd _ _
      · split
        · exact (notices_suffix_stopPlayback false _).trans
            (notices_suffix_playTrack 0 false _)
        · exact notices_suffix_stopPlayback false _
    · exact notices_suffix_fadeOutAnd _ _

/-- C8: on a media error event with a loaded source, the aborted code is
suppressed (no notice); any non-aborted code toasts a playback error
naming the current track, clears `isPlaying`, and only then hands over to
the auto-advance `playNext(true)`. -/
theorem handleError_spec (st : TState) (code : MediaErrCode) (i : Nat)
    (tr : Track)
    (hsrc : st.audioSrc.isSome = true)
    (hidx : st.currentTrackIndex = some i)
    (htr : (effQ st)[i]? = some tr) :
    (code = MediaErrCode.aborted → (handleError code st).notices = st.notices)
    ∧ (code ≠ MediaErrCode.aborted →
        handleError code st = playNext (handleErrorPre code st)
        ∧ (handleErrorPre code st).isPlaying = false
        ∧ ToastMsg.playbackError tr.name code ∈ (handleErrorPre code st).notices
        ∧ ToastMsg.playbackError tr.name code ∈ (handleError code st).notices) := by
  obtain ⟨u, hu⟩ := Option.isSome_iff_exists.mp hsrc
  have hct0 : currentTrack st = some tr := by
    simp only [currentTrack, hidx, htr]
  have hct : currentTrack (stopFade st) = some tr := hct0
  have hsrc1 : (stopFade st).audioSrc = st.audioSrc := rfl
  constructor
  · intro hab
    subst hab
    simp only [handleError, hu]
    rfl
  · intro hne
    have hdecomp : handleError code st = playNext (handleErrorPre code st) := by
      cases code with
      | aborted => exact absurd rfl hne
      | network => simp only [handleError, hu]
      | decode => simp only [handleError, hu]
      | srcNotSupported => simp only [handleError, hu]
    have hnot : (stopFade st).notices = st.notices := rfl
    have hpre : handleErrorPre code st
        = { stopFade st with
            notices := ToastMsg.playbackError tr.name code :: st.notices,
            isPlaying := false } := by
      cases code with
      | aborted => exact absurd rfl hne
      | network => simp only [handleErrorPre, hsrc1, hu, hct, hnot]
      | decode => simp only [handleErrorPre, hsrc1, hu, hct, hnot]
      | srcNotSupported => simp only [handleErrorPre, hsrc1, hu, hct, hnot]
    have hmem0 : ToastMsg.playbackError tr.name code
        ∈ (handleErrorPre code st).notices := by
      rw [hpre]
      exact List.mem_cons_self _ _
    refine ⟨hdecomp, by rw [hpre], hmem0, ?_⟩
    rw [hdecomp]
    exact (notices_suffix_playNext _).subset hmem0

theorem handleError_spec_witness :
    ((handleError MediaErrCode.aborted stA).notices = stA.notices)
    ∧ (handleError MediaErrCode.decode stA
        = playNext (handleErrorPre MediaErrCode.decode stA)
       ∧ (handleErrorPre MediaErrCode.decode stA).isPlaying = false
       ∧ ToastMsg.playbackError trackA.name MediaErrCode.decode
           ∈ (handleErrorPre MediaErrCode.decode stA).notices
       ∧ ToastMsg.playbackError trackA.name MediaErrCode.decode
           ∈ (handleError MediaErrCode.decode stA).notices) := by
  have ha := handleError_spec stA MediaErrCode.aborted 0 trackA rfl rfl rfl
  have hd := handleError_spec stA MediaErrCode.decode 0 trackA rfl rfl rfl
  exact ⟨ha.1 rfl, hd.2 (by decide)⟩

/-! ### C2 -/

namespace FadeArena

theorem stopFadeA_live (st : AState) (h : AInv st) : (stopFadeA st).live = [] := by
  rcases h with h0 | ⟨t, hl, hr, -⟩
  · simp only [stopFadeA]
    cases href : st.ref <;> simp [href, h0]
  · simp only [stopFadeA, hr, hl]
    simp

theorem stopFadeA_inv (st : AState) (h : AInv st) : AInv (stopFadeA st) :=
  Or.inl (stopFadeA_live st h)

theorem fadeOutAndA_inv (cfg : FadeCfg) (st : AState) (h : AInv st) :
    AInv (fadeOutAndA cfg st) := by
  have hnil := stopFadeA_live st h
  unfold fadeOutAndA
  split
  · rename_i hcond
    right
    refine ⟨{ id := (stopFadeA st).nextId, duration := cfg.duration
            , remaining := cfg.duration }, ?_, rfl, ?_⟩
    · simp [hnil]
    · simp [max_eq_left hcond.2.le]
  · exact Or.inl hnil

theorem fadeInA_inv (cfg : FadeCfg) (st : AState) (h : AInv st) :
    AInv (fadeInA cfg st) := by
  have hnil := stopFadeA_live st h
  unfold fadeInA
  split
  · rename_i hcond
    right
    refine ⟨{ id := (stopFadeA st).nextId, duration := cfg.duration
            , remaining := cfg.duration }, ?_, rfl, ?_⟩
    · simp [hnil]
    · simp [max_eq_left hcond.2.le]
  · exact Or.inl hnil

theorem tickA_inv (st : AState) (h : AInv st) : AInv (tickA st) := by
  rcases h with h0 | ⟨t, hl, hr, -⟩
  · unfold tickA
    simp only [h0, List.map_nil]
    cases href : st.ref with
    | none => exact Or.inl rfl
    | some tid =>
      simp only [List.find?_nil]
      exact Or.inl rfl
  · unfold tickA
    simp only [hl, hr, List.map_cons, List.map_nil]
    have hfound :
        List.find? (fun u => u.id == t.id)
          [{ t with remaining := t.remaining - 1/20 }]
        = some { t with remaining := t.remaining - 1/20 } := by
      simp [List.find?]
    simp only [hfound]
    split
    · rename_i hdone
      apply stopFadeA_inv
      exact Or.inr ⟨{ t with remaining := t.remaining - 1/20 }, rfl, rfl, rfl⟩
    · exact Or.inr ⟨{ t with remaining := t.remaining - 1/20 }, rfl, rfl, rfl⟩

theorem stepA_inv (o : AOp) (st : AState) (h : AInv st) : AInv (stepA o st) := by
  cases o with
  | fadeOut cfg => exact fadeOutAndA_inv cfg st h
  | fadeIn cfg => exact fadeInA_inv cfg st h
  | stop => exact stopFadeA_inv st h
  | tick => exact tickA_inv st h

theorem foldlA_inv (ops : List AOp) (st : AState) (h : AInv st) :
    AInv (ops.foldl (fun s o => stepA o s) st) := by
  induction ops generalizing st with
  | nil => exact h
  | cons o rest ih => exact ih _ (stepA_inv o st h)

theorem runA_inv (ops : List AOp) : AInv (runA ops) :=
  foldlA_inv ops initA (Or.inl rfl)

/-- C2: after any sequence of fade requests, cancellations and timer
firings at most one interval is live, and starting a new fade (enabled,
positive duration) always leaves exactly one live interval — the new one —
with `fadeCountdown` showing the new fade's remaining time. -/
theorem fade_exclusivity (ops : List AOp) :
    (runA ops).live.length ≤ 1
    ∧ (∀ cfg : FadeCfg, cfg.enabled = true → 0 < cfg.duration →
        ((fadeOutAndA cfg (runA ops)).live.map ATimer.duration
            = [cfg.duration]
         ∧ (fadeOutAndA cfg (runA ops)).fadeCountdown = some cfg.duration)
        ∧ ((fadeInA cfg (runA ops)).live.map ATimer.duration = [cfg.duration]
         ∧ (fadeInA cfg (runA ops)).fadeCountdown = some cfg.duration)) := by
  have hinv := runA_inv ops
  have hnil := stopFadeA_live _ hinv
  constructor
  · rcases hinv with h0 | ⟨t, hl, -, -⟩
    · rw [h0]; exact Nat.zero_le 1
    · rw [hl]; exact Nat.le_refl 1
  · intro cfg he hd
    refine ⟨⟨?_, ?_⟩, ?_, ?_⟩
    · unfold fadeOutAndA
      rw [if_pos ⟨he, hd⟩, hnil]
      rfl
    · unfold fadeOutAndA
      rw [if_pos ⟨he, hd⟩]
    · unfold fadeInA
      rw [if_pos ⟨he, hd⟩, hnil]
      rfl
    · unfold fadeInA
      rw [if_pos ⟨he, hd⟩]

theorem fade_exclusivity_witness :
    (runA [AOp.fadeOut { enabled := true, duration := 1 }, AOp.tick,
           AOp.fadeIn { enabled := true, duration := 2 }]).live.length ≤ 1
    ∧ (({ enabled := true, duration := 3 } : FadeCfg).enabled = true
       ∧ (0 : ℚ) < ({ enabled := true, duration := 3 } : FadeCfg).duration)
    ∧ ((fadeOutAndA { enabled := true, duration := 3 }
          (runA [AOp.fadeOut { enabled := true, duration := 1 }, AOp.tick,
                 AOp.fadeIn { enabled := true, duration := 2 }])).live.map
            ATimer.duration = [3]
       ∧ (fadeOutAndA { enabled := true, duration := 3 }
          (runA [AOp.fadeOut { enabled := true, duration := 1 }, AOp.tick,
                 AOp.fadeIn { enabled := true, duration := 2 }])).fadeCountdown
          = some 3) := by
  have h := fade_exclusivity [AOp.fadeOut { enabled := true, duration := 1 },
    AOp.tick, AOp.fadeIn { enabled := true, duration := 2 }]
  have h2 := h.2 { enabled := true, duration := 3 } rfl (by norm_num)
  exact ⟨h.1, ⟨rfl, by norm_num⟩, h2.1⟩

end FadeArena

/-! ### C9 -/

theorem queue_fadeIn (st : TState) : (fadeIn st).queue = st.queue := by
  simp only [fadeIn]; split <;> rfl

theorem queue_playTrack (j : Nat) (ap : Bool) (st : TState) :
    (playTrack j ap st).queue = st.queue := by
  simp only [playTrack]
  split
  · rfl
  · split
    · split
      · rw [queue_fadeIn]
        rfl
      · rfl
    · rfl

theorem queue_prevLogic (st : TState) : (prevLogic st).queue = st.queue := by
  simp only [prevLogic]
  split
  · rfl
  · split
    · split
      · rw [queue_fadeIn]
      · split
        · rw [queue_fadeIn]
        · rfl
    · split
      · split
        · rw [queue_playTrack]
        · rfl
      · rw [queue_playTrack]

theorem queue_runAction (act : PendingAction) (st : TState) :
    (runAction act st).queue = st.queue := by
  cases act with
  | runPlayTrack j ap => exact queue_playTrack j ap st
  | runPauseOnly => rfl
  | runStopAction => rfl
  | runPrevLogic => exact queue_prevLogic st

theorem queue_fadeOutAnd (act : PendingAction) (st : TState) :
    (fadeOutAnd act st).queue = st.queue := by
  simp only [fadeOutAnd]
  split
  · rfl
  · rw [queue_runAction]
    rfl

theorem queue_stopPlayback (f : Bool) (st : TState) :
    (stopPlayback f st).queue = st.queue := by
  simp only [stopPlayback]
  split
  · rw [queue_fadeOutAnd]
  · rfl

theorem queue_reResolve (old : Option Track) (st : TState) :
    (reResolve old st).queue = st.queue := by
  simp only [reResolve]
  split
  · rfl
  · split
    · rfl
    · split
      · rw [queue_playTrack]
      · rw [queue_stopPlayback]

theorem queue_queueEffect (old : Option Track) (perm : List Track → List Track)
    (st : TState) : (queueEffect old perm st).queue = st.queue := by
  simp only [queueEffect]
  split <;> rw [queue_reResolve]

theorem queue_setQueue (newQ : List Track) (perm : List Track → List Track)
    (st : TState) : (setQueue newQ perm st).queue = newQ := by
  simp only [setQueue]
  split
  · rw [queue_playTrack, queue_queueEffect]
  · rw [queue_queueEffect]

theorem notices_suffix_reResolve (old : Option Track) (st : TState) :
    st.notices <:+ (reResolve old st).notices := by
  simp only [reResolve]
  split
  · exact List.suffix_rfl
  · split
    · exact List.suffix_rfl
    · split
      · exact notices_suffix_playTrack _ _ _
      · exact notices_suffix_stopPlayback false
          { st with currentTrackIndex := Option.none }

theorem notices_suffix_queueEffect (old : Option Track)
    (perm : List Track → List Track) (st : TState) :
    st.notices <:+ (queueEffect old perm st).notices := by
  simp only [queueEffect]
  split
  · exact notices_suffix_reResolve old { st with shuffledQueue := perm st.queue }
  · exact notices_suffix_reResolve old { st with shuffledQueue := [] }

theorem notices_suffix_setQueue (newQ : List Track)
    (perm : List Track → List Track) (st : TState) :
    st.notices <:+ (setQueue newQ perm st).notices := by
  simp only [setQueue]
  split
  · exact (notices_suffix_queueEffect (currentTrack st) perm
        { st with queue := newQ }).trans
      (notices_suffix_playTrack 0 false _)
  · exact notices_suffix_queueEffect (currentTrack st) perm
      { st with queue := newQ }

/-- C9 counterexample: two identical audio files in one batch derive the
same id; deduplication only checks the pre-existing queue, so both are
appended and the resulting queue holds two tracks with the same id. -/
theorem handleFileChange_dup_ids :
    ¬ ((handleFileChange [fileX, fileX] initState).queue.map Track.id).Nodup := by
  have h : (handleFileChange [fileX, fileX] initState).queue.map Track.id
      = ["x.mp3-10-20", "x.mp3-10-20"] := by rfl
  rw [h]
  intro hn
  exact (List.nodup_cons.mp hn).1 (List.mem_cons_self _ _)


/-- C9 amended: add-tracks keeps only `audio/*` files, derives stable ids,
and skips files whose id is already in the queue (with a notice when any
is skipped); the resulting queue has no duplicate ids provided the batch
itself derives pairwise distinct ids — duplicates inside one batch are not
filtered. -/
theorem handleFileChange_spec (files : List FileInfo) (st : TState)
    (hprev : (st.queue.map Track.id).Nodup)
    (hbatch : (((files.filter (fun f => strStartsWith f.mime "audio/")).map
        mkTrack).map Track.id).Nodup) :
    (handleFileChange files st).queue
      = st.queue
        ++ ((files.filter (fun f => strStartsWith f.mime "audio/")).map
              mkTrack).filter
            (fun t => ! (st.queue.map Track.id).contains t.id)
    ∧ ((handleFileChange files st).queue.map Track.id).Nodup
    ∧ ((((files.filter (fun f => strStartsWith f.mime "audio/")).map
          mkTrack).filter
            (fun t => ! (st.queue.map Track.id).contains t.id)).length
        < ((files.filter (fun f => strStartsWith f.mime "audio/")).map
            mkTrack).length →
      ToastMsg.duplicateTracksSkipped ∈ (handleFileChange files st).notices) := by
  have hq : (handleFileChange files st).queue
      = st.queue
        ++ ((files.filter (fun f => strStartsWith f.mime "audio/")).map
              mkTrack).filter
            (fun t => ! (st.queue.map Track.id).contains t.id) := by
    simp only [handleFileChange]
    rw [queue_setQueue]
    congr 1
    split <;> split <;> rfl
  refine ⟨hq, ?_, ?_⟩
  · rw [hq, List.map_append]
    have hcomm :
        (((files.filter (fun f => strStartsWith f.mime "audio/")).map
            mkTrack).filter
          (fun t => ! (st.queue.map Track.id).contains t.id)).map Track.id
        = (((files.filter (fun f => strStartsWith f.mime "audio/")).map
            mkTrack).map Track.id).filter
          (fun a => ! (st.queue.map Track.id).contains a) := by
      conv_rhs => rw [List.filter_map]
      rfl
    rw [hcomm]
    apply List.Nodup.append hprev (hbatch.filter _)
    intro a ha hmem
    have hpa := List.of_mem_filter hmem
    simp only [Bool.not_eq_true'] at hpa
    have h2 := List.elem_eq_true_of_mem ha
    have h3 : (false : Bool) = true := by
      rw [← hpa]
      exact h2
    cases h3
  · intro hlt
    simp only [handleFileChange]
    apply (notices_suffix_setQueue _ _ _).subset
    split
    · apply List.mem_cons_of_mem
      simp [hlt]
    · simp [hlt]

theorem handleFileChange_spec_witness :
    ((initState.queue.map Track.id).Nodup
     ∧ ((([fileX].filter (fun f => strStartsWith f.mime "audio/")).map
          mkTrack).map Track.id).Nodup)
    ∧ (handleFileChange [fileX] initState).queue
        = initState.queue
          ++ (([fileX].filter (fun f => strStartsWith f.mime "audio/")).map
                mkTrack).filter
              (fun t => ! (initState.queue.map Track.id).contains t.id)
    ∧ ((handleFileChange [fileX] initState).queue.map Track.id).Nodup := by
  have h := handleFileChange_spec [fileX] initState (by simp [initState])
    (by decide)
  exact ⟨⟨by simp [initState], by decide⟩, h.1, h.2.1⟩

/-! ### C3 -/

theorem inv_stopFade (st : TState) (h : IndexInv st) : IndexInv (stopFade st) :=
  h

theorem inv_fadeIn (st : TState) (h : IndexInv st) : IndexInv (fadeIn st) := by
  intro i hi
  simp only [currentTrackIndex_fadeIn] at hi
  rw [effQ_fadeIn]
  exact h i hi

theorem inv_playTrack_hit (j : Nat) (ap : Bool) (st : TState)
    (hj : j < (effQ st).length) : IndexInv (playTrack j ap st) := by
  have hg : (effQ st)[j]? = some ((effQ st)[j]) := List.getElem?_eq_getElem hj
  simp only [playTrack, effQ_stopFade, hg]
  split
  · split
    · intro i hi
      simp only [currentTrackIndex_fadeIn] at hi
      rw [effQ_fadeIn]
      have hij : some j = some i := hi
      cases hij
      exact hj
    · intro i hi
      have hij : some j = some i := hi
      cases hij
      exact hj
  · intro i hi
    have hij : some j = some i := hi
    cases hij
    exact hj

theorem inv_playTrack (j : Nat) (ap : Bool) (st : TState) (h : IndexInv st) :
    IndexInv (playTrack j ap st) := by
  by_cases hj : j < (effQ st).length
  · exact inv_playTrack_hit j ap st hj
  · have hg : (effQ st)[j]? = Option.none := by
      simp [List.getElem?_eq_none (Nat.le_of_not_lt hj)]
    simp only [playTrack, effQ_stopFade, hg]
    exact h

theorem inv_prevLogic (st : TState) (h : IndexInv st) :
    IndexInv (prevLogic st) := by
  simp only [prevLogic]
  split
  · exact h
  · split
    · split
      · exact inv_fadeIn _ h
      · split
        · exact inv_fadeIn _ h
        · exact h
    · split
      · split
        · exact inv_playTrack _ _ _ h
        · exact h
      · exact inv_playTrack _ _ _ h

theorem inv_runAction (act : PendingAction) (st : TState) (h : IndexInv st) :
    IndexInv (runAction act st) := by
  cases act with
  | runPlayTrack j ap => exact inv_playTrack j ap st h
  | runPauseOnly => exact h
  | runStopAction => exact h
  | runPrevLogic => exact inv_prevLogic st h

theorem inv_fadeOutAnd (act : PendingAction) (st : TState) (h : IndexInv st) :
    IndexInv (fadeOutAnd act st) := by
  simp only [fadeOutAnd]
  split
  · exact h
  · exact inv_runAction act (stopFade st) h

theorem inv_stopPlayback (f : Bool) (st : TState) (h : IndexInv st) :
    IndexInv (stopPlayback f st) := by
  simp only [stopPlayback]
  split
  · exact inv_fadeOutAnd _ _ h
  · exact h

theorem inv_settleFade (st : TState) (h : IndexInv st) :
    IndexInv (settleFade st) := by
  simp only [settleFade]
  cases hft : st.fadeTimer with
  | none => exact h
  | some t =>
    cases hk : t.kind with
    | fadeOutK =>
      simp only [hk]
      cases hoc : t.onComplete with
      | some act =>
        simp only [hoc]
        exact inv_runAction act _ h
      | none =>
        simp only [hoc]
        exact h
    | fadeInK =>
      simp only [hk]
      exact h

theorem inv_playNext (st : TState) (h : IndexInv st) : IndexInv (playNext st) := by
  simp only [playNext]
  split
  · exact h
  · split
    · split
      · exact inv_fadeOutAnd _ _ h
      · split
        · exact inv_playTrack _ _ _ (inv_stopPlayback _ _ h)
        · exact inv_stopPlayback _ _ h
    · exact inv_fadeOutAnd _ _ h

theorem inv_playPrev (st : TState) (h : IndexInv st) : IndexInv (playPrev st) := by
  simp only [playPrev]
  split
  · exact h
  · split
    · exact inv_fadeOutAnd _ _ h
    · exact inv_prevLogic _ h

theorem inv_togglePlayPause (st : TState) (h : IndexInv st) :
    IndexInv (togglePlayPause st) := by
  simp only [togglePlayPause]
  split
  · exact h
  · split
    · split
      · exact inv_playTrack _ _ _ h
      · exact h
    · split
      · exact inv_fadeOutAnd _ _ h
      · split
        · exact inv_fadeIn _ h
        · exact h

theorem currentTrack_none_of (st : TState) (h : IndexInv st)
    (hc : currentTrack st = Option.none) :
    st.currentTrackIndex = Option.none := by
  cases hci : st.currentTrackIndex with
  | none => rfl
  | some i =>
    have hl := h i hci
    have : currentTrack st = some ((effQ st)[i]) := by
      simp only [currentTrack, hci, List.getElem?_eq_getElem hl]
    rw [hc] at this
    cases this

theorem inv_reResolve (old : Option Track) (st : TState)
    (hnone : old = Option.none → IndexInv st) :
    IndexInv (reResolve old st) := by
  cases old with
  | none =>
    simp only [reResolve]
    exact hnone rfl
  | some tr =>
    simp only [reResolve]
    cases hf : (effQ st).findIdx? (fun t => t.id == tr.id) with
    | some j =>
      simp only [hf]
      intro i hi
      have hij : some j = some i := hi
      cases hij
      exact (List.findIdx?_eq_some_iff_findIdx_eq.mp hf).1
    | none =>
      simp only [hf]
      split
      · rename_i hlen
        exact inv_playTrack_hit 0 false st hlen
      · intro i hi
        exact Option.noConfusion (show (Option.none : Option Nat) = some i from hi)

theorem inv_queueEffect (old : Option Track) (perm : List Track → List Track)
    (st : TState)
    (hn : old = Option.none → st.currentTrackIndex = Option.none) :
    IndexInv (queueEffect old perm st) := by
  simp only [queueEffect]
  split
  · apply inv_reResolve
    intro ho
    intro i hi
    have hi2 : st.currentTrackIndex = some i := hi
    rw [hn ho] at hi2
    cases hi2
  · apply inv_reResolve
    intro ho
    intro i hi
    have hi2 : st.currentTrackIndex = some i := hi
    rw [hn ho] at hi2
    cases hi2

theorem inv_toggleShuffle (perm : List Track → List Track) (st : TState)
    (h : IndexInv st) : IndexInv (toggleShuffle perm st) := by
  simp only [toggleShuffle]
  apply inv_queueEffect
  intro ho
  exact currentTrack_none_of st h ho

theorem inv_setQueue (newQ : List Track) (perm : List Track → List Track)
    (st : TState) (h : IndexInv st) : IndexInv (setQueue newQ perm st) := by
  simp only [setQueue]
  have h1 : IndexInv (queueEffect (currentTrack st) perm { st with queue := newQ }) := by
    apply inv_queueEffect
    intro ho
    exact currentTrack_none_of st h ho
  split
  · exact inv_playTrack _ _ _ h1
  · exact h1

theorem inv_clearQueue (st : TState) (_h : IndexInv st) :
    IndexInv (clearQueue st) := by
  intro i hi
  exact Option.noConfusion (show (Option.none : Option Nat) = some i from hi)

theorem inv_reorderQueue (s e : Nat) (st : TState) (h : IndexInv st) :
    IndexInv (reorderQueue s e st) := by
  simp only [reorderQueue]
  split
  · exact h
  · rename_i hshuf
    have hsh : st.isShuffled = false := by
      cases hb : st.isShuffled
      · rfl
      · exact absurd hb hshuf
    have hlen : (listMove s e st.queue).length = st.queue.length :=
      length_listMove s e st.queue
    have heff : (effQ st).length = st.queue.length := by
      simp [effQ, hsh]
    split
    · apply inv_queueEffect
      intro ho
      apply currentTrack_none_of _ ?_ ho
      intro i hi
      have hi2 : st.currentTrackIndex = some i := hi
      have hb := h i hi2
      rw [heff] at hb
      simp only [effQ, hsh, Bool.false_eq_true, if_false, hlen]
      exact hb
    · split
      · rename_i tr hct j hf
        apply inv_queueEffect
        intro ho
        apply currentTrack_none_of _ ?_ ho
        intro i hi
        have hij : some j = some i := hi
        cases hij
        have hjl := (List.findIdx?_eq_some_iff_findIdx_eq.mp hf).1
        simp only [effQ, hsh, Bool.false_eq_true, if_false]
        exact hjl
      · apply inv_queueEffect
        intro ho
        apply currentTrack_none_of _ ?_ ho
        intro i hi
        have hi2 : st.currentTrackIndex = some i := hi
        have hb := h i hi2
        rw [heff] at hb
        simp only [effQ, hsh, Bool.false_eq_true, if_false, hlen]
        exact hb

theorem inv_setVolume (v : ℚ) (st : TState) (h : IndexInv st) :
    IndexInv (setVolume v st) := by
  simp only [setVolume]
  split <;> split <;> exact h

theorem inv_handleErrorPre (code : MediaErrCode) (st : TState) (h : IndexInv st) :
    IndexInv (handleErrorPre code st) := by
  simp only [handleErrorPre]
  split
  · exact h
  · split
    · exact h
    · exact h

theorem inv_handleError (code : MediaErrCode) (st : TState) (h : IndexInv st) :
    IndexInv (handleError code st) := by
  simp only [handleError]
  split
  · exact h
  · exact h
  · exact inv_playNext _ (inv_handleErrorPre _ _ h)

theorem inv_stepOp (o : Op) (st : TState) (h : IndexInv st) :
    IndexInv (stepOp o st) := by
  cases o with
  | opPlayTrack i ap => exact inv_playTrack i ap st h
  | opPlayNext => exact inv_playNext st h
  | opPlayPrev => exact inv_playPrev st h
  | opTogglePlayPause => exact inv_togglePlayPause st h
  | opStopPlayback f => exact inv_stopPlayback f st h
  | opToggleShuffle perm => exact inv_toggleShuffle perm st h
  | opSetQueue newQ perm => exact inv_setQueue newQ perm st h
  | opReorderQueue s e => exact inv_reorderQueue s e st h
  | opClearQueue => exact inv_clearQueue st h
  | opSetVolume v => exact inv_setVolume v st h
  | opSetRepeatMode m => exact h
  | opToggleMute => exact h
  | opSettleFade => exact inv_settleFade st h
  | opHandleError c => exact inv_handleError c st h

theorem inv_foldl (ops : List Op) (st : TState) (h : IndexInv st) :
    IndexInv (ops.foldl (fun s o => stepOp o s) st) := by
  induction ops generalizing st with
  | nil => exact h
  | cons o rest ih => exact ih _ (inv_stepOp o st h)

/-- C3: after every sequence of public operations (playTrack, playNext,
playPrev, togglePlayPause, stopPlayback, toggleShuffle, queue mutation,
reorderQueue, clearQueue, setVolume, repeat/mute changes, fade completion,
error events) the current index is either unset or addresses the effective
queue. -/
theorem index_bounds (ops : List Op) :
    (runOps ops initState).currentTrackIndex = Option.none
    ∨ ∃ i, (runOps ops initState).currentTrackIndex = some i
        ∧ i < (effQ (runOps ops initState)).length := by
  have h : IndexInv (runOps ops initState) :=
    inv_foldl ops initState (fun i hi => Option.noConfusion hi)
  cases hidx : (runOps ops initState).currentTrackIndex with
  | none => exact Or.inl rfl
  | some i => exact Or.inr ⟨i, rfl, h i hidx⟩

end StageCue
